import Mathlib

/-!
Verification development for the batched remote-call client
(`KeyBridgeClient.ts`): a shallow embedding of its data model and state
transitions, with theorems settling the specified properties.

Modelling conventions:
* JavaScript values appearing in results are modelled by `JSValue`;
  `JSON.parse` (a platform builtin) is an abstract parameter
  `decode : String → Option JSValue` (`none` = parse throws).
* JS `Map` is an insertion-ordered association list with unique keys
  (`mapSet` overwrites in place on an existing key, appends otherwise);
  JS `Set` is a duplicate-free list (`setAdd` is a no-op on members).
* Invoking a request continuation (`resolve`/`reject`) is recorded as an
  `Event` keyed by the request key; `setTimeout` re-arms are recorded as
  an `Option Int` delay carried out of a round.
* HTTP outcomes of a round are an explicit `RoundOutcome`; requests
  enqueued while a round is in flight are the `submitted` argument.
-/

namespace KeyBridge

/-- JavaScript values (the subset producible by JSON plus what the server
may hand back in a batch result). -/
inductive JSValue : Type where
  | null : JSValue
  | bool : Bool → JSValue
  | num : Int → JSValue
  | str : String → JSValue
  | arr : List JSValue → JSValue
  | obj : List (String × JSValue) → JSValue

/-- JS truthiness of a value. -/
def jsTruthy : JSValue → Bool
  | JSValue.null => false
  | JSValue.bool b => b
  | JSValue.num n => n != 0
  | JSValue.str s => s != ""
  | JSValue.arr _ => true
  | JSValue.obj _ => true

/-- Whether `typeof v === "object"` holds in JS (true for objects, arrays
and `null`). -/
def typeofObject : JSValue → Bool
  | JSValue.null => true
  | JSValue.arr _ => true
  | JSValue.obj _ => true
  | _ => false

/-- Property access `v[name]`; `none` models `undefined`. -/
def jsProp : JSValue → String → Option JSValue
  | JSValue.obj fields, name => fields.lookup name
  | _, _ => none

/-- JS whitespace characters relevant to `String.prototype.trim`. -/
def jsWhitespace (c : Char) : Bool :=
  c = ' ' || c = '\t' || c = '\n' || c = '\r'

/-- Executable model of JS `String.prototype.trim`. -/
def jsTrim (s : String) : String :=
  String.mk (((s.data.dropWhile jsWhitespace).reverse.dropWhile jsWhitespace).reverse)

/-- JS `a || b` for an optional string `a` (used on `data?.message || d`):
falls back to `d` when `a` is absent or falsy (empty). -/
def jsOrElse (a : Option String) (d : String) : String :=
  match a with
  | some s => if s = "" then d else s
  | none => d

/-- `ApiCallType` from the source: method name plus optional params. -/
structure ApiCall : Type where
  method : String
  params : Option (List JSValue) := none

/-- `BatchRequestType` minus the two continuations, which are addressed
through `requestKey` by emitted `Event`s. -/
structure BatchRequest : Type where
  requestKey : String
  call : ApiCall
  timestamp : Int

/-- One entry of the server `results` array (`ServerResultType`). -/
structure ServerResult : Type where
  requestKey : String
  status : String
  result : Option JSValue := none
  isError : Bool := false

/-- One entry of the server `created` array. -/
structure CreatedAck : Type where
  requestKey : String
  status : String

/-- The validated `data` part of a batch response
(`ServerBatchResponseType.data`, restricted to the fields the client
reads). -/
structure BatchData : Type where
  intervalMs : Option Int := none
  results : List ServerResult := []
  created : List CreatedAck := []

/-- A thrown transport error as the client inspects it
(`AxiosErrorResponseType`): optional HTTP status, optional
`response.data.message`, and the `Error.message` (`none` when the thrown
value is not an `Error` instance). -/
structure JsError : Type where
  status : Option Int := none
  dataMessage : Option String := none
  message : Option String := none

/-- An invocation of a stored continuation. -/
inductive Event : Type where
  | resolve : String → Option JSValue → Event
  | reject : String → String → Event

/-! ### JS Map / Set operations on association lists -/

/-- Whether the map has an entry for key `k`. -/
def containsKey (m : List (String × BatchRequest)) (k : String) : Bool :=
  m.any (fun p => p.1 == k)

/-- `Map.get`. -/
def mapGet (m : List (String × BatchRequest)) (k : String) : Option BatchRequest :=
  m.lookup k

/-- `Map.set`: overwrite in place when the key exists, append otherwise. -/
def mapSet (m : List (String × BatchRequest)) (k : String) (v : BatchRequest) :
    List (String × BatchRequest) :=
  if containsKey m k then m.map (fun p => if p.1 = k then (k, v) else p)
  else m ++ [(k, v)]

/-- `Map.delete`. -/
def mapDelete (m : List (String × BatchRequest)) (k : String) :
    List (String × BatchRequest) :=
  m.filter (fun p => p.1 != k)

/-- `Set.add`. -/
def setAdd (s : List String) (k : String) : List String :=
  if k ∈ s then s else s ++ [k]

/-! ### Client state -/

/-- The whole mutable state of a `KeyBridgeClient` instance: the
`connection`, `queues` and `state` private fields. -/
structure ClientState : Type where
  key : Option String
  pollRate : Int
  broken : Bool
  pending : List (String × BatchRequest)
  active : List (String × BatchRequest)
  completed : List String
  processing : Bool
  error : Option String

/-- The state of a freshly constructed client. -/
def initState : ClientState :=
  ⟨none, 500, false, [], [], [], false, none⟩

/-- JS truthiness of the `key` field (`!!this.connection.key`). -/
def jsTruthyKey : Option String → Bool
  | some t => t != ""
  | none => false

/-- JS truthiness of the `error` field (`!!this.state.error`). -/
def jsTruthyErr : Option String → Bool
  | some m => m != ""
  | none => false

/-- The snapshot returned by `getState()` (queue sizes flattened). -/
structure KeyBridgeState : Type where
  connected : Bool
  processing : Bool
  error : Option String
  pollRate : Int
  pendingCount : Nat
  activeCount : Nat
  completedCount : Nat

/-- `getState()`. -/
def getState (s : ClientState) : KeyBridgeState :=
  ⟨!s.broken && jsTruthyKey s.key, s.processing, s.error, s.pollRate,
    s.pending.length, s.active.length, s.completed.length⟩

/-- The `isConnected` getter. -/
def isConnected (s : ClientState) : Bool :=
  !s.broken && jsTruthyKey s.key && !(jsTruthyErr s.error)

/-- `getErrorMessage`: the `Error.message`, else a generic text. -/
def getErrorMessage (e : JsError) : String :=
  match e.message with
  | some m => m
  | none => "Unknown error"

/-- The `Math.max(500, Math.min(10000, n))` clamp applied to
server-supplied intervals. -/
def clamp (n : Int) : Int :=
  max 500 (min 10000 n)

/-- Key normalization in `setKey`: `(key || '').trim() || null`. -/
def normalizeKey (k : Option String) : Option String :=
  if jsTrim (match k with | some s => s | none => "") = "" then none
  else some (jsTrim (match k with | some s => s | none => ""))

/-- `resetState()`: reject every pending and active request with a
connection-reset error (pending first, in insertion order), then clear
the three queues and the processing flag. -/
def resetState (s : ClientState) : ClientState × List Event :=
  ({s with pending := [], active := [], completed := [], processing := false},
    s.pending.map (fun p => Event.reject p.1 "Connection reset") ++
      s.active.map (fun p => Event.reject p.1 "Connection reset"))

/-- The pollRate update performed by `initializeConnection` on a
successful init response: adopt only a positive numeric `intervalMs`,
clamped. -/
def initUpdatePollRate (pollRate : Int) (intervalMs : Option Int) : Int :=
  match intervalMs with
  | some n => if 0 < n then clamp n else pollRate
  | none => pollRate

/-- The pollRate update performed by `handleBatchResponse`: adopt any
numeric `intervalMs`, clamped. -/
def batchUpdatePollRate (pollRate : Int) (intervalMs : Option Int) : Int :=
  match intervalMs with
  | some n => clamp n
  | none => pollRate

/-- Outcome of the init round-trip performed by `setKey`: the validated
response `intervalMs` on success, or the thrown error. -/
inductive InitOutcome : Type where
  | success : Option Int → InitOutcome
  | failure : JsError → InitOutcome

/-- The part of `setKey` that runs before any network activity: clear
`broken` and `error`, run `resetState`, adopt the normalized key. -/
def setKeyLocal (s : ClientState) (k : Option String) : ClientState × List Event :=
  let r := resetState {s with broken := false, error := none}
  ({r.1 with key := normalizeKey k}, r.2)

/-- Result of a full `setKey` call. -/
structure SetKeyResult : Type where
  state : ClientState
  events : List Event
  performedInit : Bool

/-- Full `setKey`: the local phase, then — only when the normalized key
is non-empty — the init round-trip (`initializeConnection` plus the
surrounding catch in `setKey`). -/
def setKeyStep (s : ClientState) (k : Option String) (o : InitOutcome) : SetKeyResult :=
  let loc := setKeyLocal s k
  match loc.1.key with
  | none => ⟨loc.1, loc.2, false⟩
  | some _ =>
    match o with
    | InitOutcome.success iv =>
        ⟨{loc.1 with pollRate := initUpdatePollRate loc.1.pollRate iv}, loc.2, true⟩
    | InitOutcome.failure e =>
        if e.status = some 404 then
          ⟨{loc.1 with broken := true, key := none, error := some "KEY_NOT_FOUND"},
            loc.2, true⟩
        else ⟨{loc.1 with error := some (getErrorMessage e)}, loc.2, true⟩

/-- The connected-path enqueue of `executeOrFallback`: insert a fresh
request into `pending`. -/
def enqueue (s : ClientState) (rk : String) (c : ApiCall) (ts : Int) : ClientState :=
  {s with pending := mapSet s.pending rk ⟨rk, c, ts⟩}

/-- `parseResult`: unwrap policy applied to a successful result before
resolving. -/
def parseResult (decode : String → Option JSValue) : Option JSValue → Option JSValue
  | some (JSValue.str s) =>
    (match decode s with
      | some parsed =>
          if jsTruthy parsed && typeofObject parsed && (jsProp parsed "result").isSome
          then jsProp parsed "result"
          else some parsed
      | none => some (JSValue.str s))
  | some v =>
      if jsTruthy v && typeofObject v then
        if (jsProp v "method").isSome && (jsProp v "result").isSome
        then jsProp v "result"
        else some v
      else some v
  | none => none

/-- `hasWork` in `processIfNeeded`, and the identical re-arm condition at
the end of `processBatch`: some queue is non-empty. -/
def hasWork (s : ClientState) : Bool :=
  decide (0 < s.pending.length) || decide (0 < s.active.length) ||
    decide (0 < s.completed.length)

/-- The early-return condition of `processIfNeeded`: broken, already
processing, no (truthy) key, or no work. -/
def processGuard (s : ClientState) : Bool :=
  s.broken || s.processing || !(jsTruthyKey s.key) || !(hasWork s)

/-- `isCriticalError` in `handleBatchError`: HTTP 404 or 500. -/
def isCritical (e : JsError) : Bool :=
  decide (e.status = some 404) || decide (e.status = some 500)

/-- The rollback loop of `handleBatchError`: re-`set` every snapshot
pending entry into the live pending map. -/
def rollbackPending (live snapshot : List (String × BatchRequest)) :
    List (String × BatchRequest) :=
  snapshot.foldl (fun acc p => mapSet acc p.1 p.2) live

/-- The rollback loop of `handleBatchError`: re-`add` every snapshot
completed key into the live completed set. -/
def restoreCompleted (live snapshot : List String) : List String :=
  snapshot.foldl setAdd live

/-- What one round hands back: the state, the continuation invocations it
performed, and the delay of the `setTimeout` it armed (if any). -/
structure BatchStep : Type where
  state : ClientState
  events : List Event
  timer : Option Int

/-- Accumulator of the `results` loop in `handleBatchResponse`. -/
structure ResultsAcc : Type where
  active : List (String × BatchRequest)
  completed : List String
  events : List Event

/-- One iteration of the `results` loop: look the key up in the live
active map; on a `done` result reject (error) or resolve (parsed result),
then move the key from active to completed. -/
def applyResult (decode : String → Option JSValue) (acc : ResultsAcc)
    (r : ServerResult) : ResultsAcc :=
  match mapGet acc.active r.requestKey with
  | none => acc
  | some _ =>
    if r.status = "done" then
      let ev :=
        if r.isError then
          Event.reject r.requestKey
            (match r.result with
              | some (JSValue.str m) => m
              | _ => "Execution failed")
        else Event.resolve r.requestKey (parseResult decode r.result)
      ⟨mapDelete acc.active r.requestKey, setAdd acc.completed r.requestKey,
        acc.events ++ [ev]⟩
    else acc

/-- Accumulator of the `created` loop in `handleBatchResponse`. -/
structure CreatedAcc : Type where
  active : List (String × BatchRequest)
  events : List Event

/-- One iteration of the `created` loop: look the key up in the snapshot
of what was sent; promote to active on status `pending`, otherwise reject
with an enqueue failure. -/
def applyCreated (batchToSend : List (String × BatchRequest)) (acc : CreatedAcc)
    (item : CreatedAck) : CreatedAcc :=
  match mapGet batchToSend item.requestKey with
  | none => acc
  | some req =>
    if item.status = "pending" then
      ⟨mapSet acc.active item.requestKey req, acc.events⟩
    else ⟨acc.active, acc.events ++ [Event.reject item.requestKey "Failed to enqueue request"]⟩

/-- `handleBatchResponse`: adopt `intervalMs` (clamped), settle `results`
against the live active map, then reconcile `created` acknowledgments
against the snapshot of what was sent. -/
def handleBatchResponse (decode : String → Option JSValue) (s : ClientState)
    (data : BatchData) (batchToSend : List (String × BatchRequest)) :
    ClientState × List Event :=
  let pr := batchUpdatePollRate s.pollRate data.intervalMs
  let ra := data.results.foldl (applyResult decode) ⟨s.active, s.completed, []⟩
  let ca := data.created.foldl (applyCreated batchToSend) ⟨ra.active, []⟩
  ({s with pollRate := pr, active := ca.active, completed := ra.completed},
    ra.events ++ ca.events)

/-- `handleBatchError`: roll the snapshots back into the live queues,
record the message, then either (critical 404/500) break the connection —
nulling the key and adopting the server message on 404 — and fully reset,
or (transient) arm a retry after `min(2000, pollRate)` ms. -/
def handleBatchError (s : ClientState) (e : JsError)
    (batchToSend : List (String × BatchRequest)) (completedSnapshot : List String) :
    BatchStep :=
  let s1 := {s with pending := rollbackPending s.pending batchToSend,
                    completed := restoreCompleted s.completed completedSnapshot,
                    error := some (getErrorMessage e)}
  if isCritical e then
    let s2 :=
      if e.status = some 404 then
        {s1 with broken := true, key := none,
                 error := some (jsOrElse e.dataMessage "Session not found. Create key again.")}
      else {s1 with broken := true}
    let r := resetState s2
    ⟨r.1, r.2, none⟩
  else ⟨s1, [], some (min 2000 s1.pollRate)⟩

/-- The transport outcome of one batch round: the validated response
data, or the thrown error. -/
inductive RoundOutcome : Type where
  | success : BatchData → RoundOutcome
  | failure : JsError → RoundOutcome

/-- `processBatch`: guard, snapshot pending and completed, clear both
(requests submitted during the round land in the fresh pending map and
are the `submitted` argument), then reconcile the response or handle the
error; on success re-arm iff some queue is non-empty. -/
def processBatch (decode : String → Option JSValue) (s : ClientState)
    (outcome : RoundOutcome) (submitted : List (String × BatchRequest)) :
    BatchStep :=
  if s.broken || !(jsTruthyKey s.key) then ⟨s, [], none⟩
  else
    let batchToSend := s.pending
    let completedSnapshot := s.completed
    let sMid := {s with pending := submitted, completed := []}
    match outcome with
    | RoundOutcome.success data =>
        let hr := handleBatchResponse decode sMid data batchToSend
        ⟨hr.1, hr.2, if hasWork hr.1 then some hr.1.pollRate else none⟩
    | RoundOutcome.failure e =>
        handleBatchError sMid e batchToSend completedSnapshot

/-- Result of one `processIfNeeded` call: `started` tells whether a round
ran at all. -/
structure RoundResult : Type where
  state : ClientState
  events : List Event
  timer : Option Int
  started : Bool

/-- The state `processIfNeeded` hands to `processBatch`: the processing
flag raised. -/
def beginRound (s : ClientState) : ClientState :=
  {s with processing := true}

/-- `processIfNeeded`: a no-op under the guard; otherwise raise the
processing flag, run the round, and lower the flag again in the
`finally`. -/
def stepRound (decode : String → Option JSValue) (s : ClientState)
    (outcome : RoundOutcome) (submitted : List (String × BatchRequest)) :
    RoundResult :=
  if processGuard s then ⟨s, [], none, false⟩
  else
    let b := processBatch decode (beginRound s) outcome submitted
    ⟨{b.state with processing := false}, b.events, b.timer, true⟩

/-! ### The reachable-state transition system -/

/-- One externally triggered transition of the client. -/
inductive Step : ClientState → ClientState → Prop where
  | setKeyS (s sNext : ClientState) (k : Option String) (o : InitOutcome)
      (h : (setKeyStep s k o).state = sNext) : Step s sNext
  | submitS (s sNext : ClientState) (rk : String) (c : ApiCall) (ts : Int)
      (hb : s.broken = false) (hk : jsTruthyKey s.key = true)
      (h : enqueue s rk c ts = sNext) : Step s sNext
  | roundS (s sNext : ClientState) (decode : String → Option JSValue)
      (o : RoundOutcome) (submitted : List (String × BatchRequest))
      (h : (stepRound decode s o submitted).state = sNext) : Step s sNext

/-- States the client can be in, starting from construction. -/
inductive Reachable : ClientState → Prop where
  | init : Reachable initState
  | step {s sNext : ClientState} : Reachable s → Step s sNext → Reachable sNext

/-! ### Association-list lemmas -/

theorem containsKey_append (m l : List (String × BatchRequest)) (k : String) :
    containsKey (m ++ l) k = (containsKey m k || containsKey l k) := by
  simp [containsKey, List.any_append]

theorem containsKey_iff {m : List (String × BatchRequest)} {k : String} :
    containsKey m k = true ↔ k ∈ m.map Prod.fst := by
  simp only [containsKey, List.any_eq_true, List.mem_map, beq_iff_eq]

theorem containsKey_eq_false_iff {m : List (String × BatchRequest)} {k : String} :
    containsKey m k = false ↔ k ∉ m.map Prod.fst := by
  rw [← containsKey_iff]
  cases h : containsKey m k <;> simp [h]

theorem lookup_append_left {m : List (String × BatchRequest)}
    (l : List (String × BatchRequest)) {k : String} {v : BatchRequest}
    (h : mapGet m k = some v) : mapGet (m ++ l) k = some v := by
  induction m with
  | nil => simp [mapGet, List.lookup] at h
  | cons p t ih =>
    obtain ⟨a, b⟩ := p
    unfold mapGet at h ⊢
    rw [List.cons_append]
    cases hka : (k == a) with
    | true => simpa [List.lookup, hka] using h
    | false =>
      simp only [List.lookup, hka] at h ⊢
      exact ih h

theorem lookup_append_right {m : List (String × BatchRequest)}
    (l : List (String × BatchRequest)) {k : String}
    (h : containsKey m k = false) : mapGet (m ++ l) k = mapGet l k := by
  induction m with
  | nil => simp
  | cons p t ih =>
    obtain ⟨a, b⟩ := p
    simp only [containsKey, List.any_cons, Bool.or_eq_false_iff] at h
    have hak : (a == k) = false := h.1
    have hka : (k == a) = false := by
      simp only [beq_eq_false_iff_ne] at hak ⊢
      exact fun he => hak he.symm
    unfold mapGet
    rw [List.cons_append]
    simp only [List.lookup, hka]
    exact ih h.2

theorem lookup_mem_keys {m : List (String × BatchRequest)} {k : String}
    {v : BatchRequest} (h : mapGet m k = some v) : k ∈ m.map Prod.fst := by
  induction m with
  | nil => simp [mapGet, List.lookup] at h
  | cons p t ih =>
    obtain ⟨a, b⟩ := p
    unfold mapGet at h
    cases hka : (k == a) with
    | true =>
      have : k = a := by simpa [beq_iff_eq] using hka
      simp [this]
    | false =>
      simp only [List.lookup, hka] at h
      simp [ih h]

theorem mapSet_of_not_contains {m : List (String × BatchRequest)} {k : String}
    {v : BatchRequest} (h : containsKey m k = false) :
    mapSet m k v = m ++ [(k, v)] := by
  simp [mapSet, h]

theorem keys_mapSet_superset {m : List (String × BatchRequest)} {k1 k : String}
    {v : BatchRequest} (h : k1 ∈ m.map Prod.fst) :
    k1 ∈ (mapSet m k v).map Prod.fst := by
  by_cases hc : containsKey m k = true
  · simp only [mapSet, hc, if_true, List.map_map, List.mem_map] at h ⊢
    obtain ⟨p, hp, he⟩ := h
    refine ⟨p, hp, ?_⟩
    simp only [Function.comp]
    by_cases hpk : p.1 = k
    · rw [if_pos hpk]
      rw [← he, hpk]
    · rw [if_neg hpk]
      exact he
  · have hc2 : containsKey m k = false := by
      cases h2 : containsKey m k
      · rfl
      · exact absurd h2 hc
    simp [mapSet_of_not_contains hc2, h]

theorem keys_mapSet_self {m : List (String × BatchRequest)} {k : String}
    {v : BatchRequest} : k ∈ (mapSet m k v).map Prod.fst := by
  by_cases hc : containsKey m k = true
  · simp only [mapSet, hc, if_true, List.map_map, List.mem_map]
    obtain ⟨p, hp, he⟩ := List.mem_map.mp (containsKey_iff.mp hc)
    refine ⟨p, hp, ?_⟩
    simp [Function.comp, he]
  · have hc2 : containsKey m k = false := by
      cases h2 : containsKey m k
      · rfl
      · exact absurd h2 hc
    simp [mapSet_of_not_contains hc2]

theorem keys_rollback_left {live : List (String × BatchRequest)} {k : String}
    (snapshot : List (String × BatchRequest)) (h : k ∈ live.map Prod.fst) :
    k ∈ (rollbackPending live snapshot).map Prod.fst := by
  induction snapshot generalizing live with
  | nil => simpa [rollbackPending] using h
  | cons p t ih =>
    simp only [rollbackPending, List.foldl_cons]
    exact ih (keys_mapSet_superset h)

theorem keys_rollback_right {live snapshot : List (String × BatchRequest)}
    {k : String} (h : k ∈ snapshot.map Prod.fst) :
    k ∈ (rollbackPending live snapshot).map Prod.fst := by
  induction snapshot generalizing live with
  | nil => simp at h
  | cons p t ih =>
    simp only [List.map_cons, List.mem_cons] at h
    simp only [rollbackPending, List.foldl_cons]
    rcases h with h | h
    · subst h
      exact keys_rollback_left t keys_mapSet_self
    · exact ih h

theorem rollback_append {snapshot : List (String × BatchRequest)} :
    ∀ {live : List (String × BatchRequest)},
      (∀ p ∈ snapshot, containsKey live p.1 = false) →
      (snapshot.map Prod.fst).Nodup →
      rollbackPending live snapshot = live ++ snapshot := by
  induction snapshot with
  | nil => intro live _ _; simp [rollbackPending]
  | cons p t ih =>
    intro live hdisj hnd
    simp only [rollbackPending, List.foldl_cons]
    have h1 : mapSet live p.1 p.2 = live ++ [p] := by
      rw [mapSet_of_not_contains (hdisj p (by simp))]
    rw [h1]
    simp only [List.map_cons, List.nodup_cons] at hnd
    have h2 : ∀ q ∈ t, containsKey (live ++ [p]) q.1 = false := by
      intro q hq
      rw [containsKey_append, Bool.or_eq_false_iff]
      refine ⟨hdisj q (by simp [hq]), ?_⟩
      have hne : p.1 ≠ q.1 := by
        intro he
        exact hnd.1 (he ▸ List.mem_map.mpr ⟨q, hq, rfl⟩)
      simp [containsKey, beq_eq_false_iff_ne]
      exact hne
    have := @ih (live ++ [p]) h2 hnd.2
    rw [rollbackPending] at this
    rw [this, List.append_assoc, List.singleton_append]

theorem mem_setAdd_self {s : List String} {k : String} : k ∈ setAdd s k := by
  by_cases h : k ∈ s <;> simp [setAdd, h]

theorem mem_setAdd_of_mem {s : List String} {a k : String} (h : a ∈ s) :
    a ∈ setAdd s k := by
  by_cases hk : k ∈ s <;> simp [setAdd, hk, h]

theorem mem_restore_left {live : List String} {a : String}
    (snapshot : List String) (h : a ∈ live) : a ∈ restoreCompleted live snapshot := by
  induction snapshot generalizing live with
  | nil => simpa [restoreCompleted] using h
  | cons k t ih =>
    simp only [restoreCompleted, List.foldl_cons]
    exact ih (mem_setAdd_of_mem h)

theorem mem_restore_right {live snapshot : List String} {a : String}
    (h : a ∈ snapshot) : a ∈ restoreCompleted live snapshot := by
  induction snapshot generalizing live with
  | nil => simp at h
  | cons k t ih =>
    simp only [List.mem_cons] at h
    simp only [restoreCompleted, List.foldl_cons]
    rcases h with h | h
    · subst h
      exact mem_restore_left t mem_setAdd_self
    · exact ih h

/-! ### State invariants -/

theorem clamp_bounds (n : Int) : 500 ≤ clamp n ∧ clamp n ≤ 10000 := by
  unfold clamp
  constructor
  · exact le_max_left 500 (min 10000 n)
  · exact max_le (by norm_num) (min_le_left 10000 n)

/-- pollRate stays in the clamp range. -/
def pollRateInv (s : ClientState) : Prop :=
  500 ≤ s.pollRate ∧ s.pollRate ≤ 10000

/-- The key is never the empty string (it is normalized or nulled). -/
def keyInv (s : ClientState) : Prop :=
  s.key ≠ some ""

theorem normalizeKey_ne_empty (k : Option String) : normalizeKey k ≠ some "" := by
  intro hcon
  unfold normalizeKey at hcon
  split at hcon
  · exact Option.noConfusion hcon
  · rename_i ht
    injection hcon with hcon2
    exact ht hcon2

theorem initUpdate_cases (p : Int) (iv : Option Int) :
    initUpdatePollRate p iv = p ∨ ∃ n, initUpdatePollRate p iv = clamp n := by
  unfold initUpdatePollRate
  cases iv with
  | none => exact Or.inl rfl
  | some n =>
    by_cases h : 0 < n
    · exact Or.inr ⟨n, by simp [h]⟩
    · exact Or.inl (by simp [h])

theorem batchUpdate_cases (p : Int) (iv : Option Int) :
    batchUpdatePollRate p iv = p ∨ ∃ n, batchUpdatePollRate p iv = clamp n := by
  unfold batchUpdatePollRate
  cases iv with
  | none => exact Or.inl rfl
  | some n => exact Or.inr ⟨n, rfl⟩

theorem setKeyStep_key (s : ClientState) (k : Option String) (o : InitOutcome) :
    (setKeyStep s k o).state.key = normalizeKey k ∨ (setKeyStep s k o).state.key = none := by
  cases hk : normalizeKey k with
  | none =>
    right
    simp [setKeyStep, setKeyLocal, resetState, hk]
  | some t =>
    cases o with
    | success iv =>
      left
      simp [setKeyStep, setKeyLocal, resetState, hk]
    | failure e =>
      by_cases h4 : e.status = some 404
      · right
        simp [setKeyStep, setKeyLocal, resetState, hk, h4]
      · left
        simp [setKeyStep, setKeyLocal, resetState, hk, h4]

theorem setKeyStep_pollRate (s : ClientState) (k : Option String) (o : InitOutcome) :
    (setKeyStep s k o).state.pollRate = s.pollRate ∨
      ∃ n, (setKeyStep s k o).state.pollRate = clamp n := by
  cases hk : normalizeKey k with
  | none =>
    left
    simp [setKeyStep, setKeyLocal, resetState, hk]
  | some t =>
    cases o with
    | success iv =>
      rcases initUpdate_cases s.pollRate iv with h | ⟨n, h⟩
      · left
        simp [setKeyStep, setKeyLocal, resetState, hk]
        exact h
      · right
        refine ⟨n, ?_⟩
        simp [setKeyStep, setKeyLocal, resetState, hk]
        exact h
    | failure e =>
      by_cases h4 : e.status = some 404 <;> left <;>
        simp [setKeyStep, setKeyLocal, resetState, hk, h4]

theorem handleBatchError_pollRate (s : ClientState) (e : JsError)
    (bts : List (String × BatchRequest)) (cs : List String) :
    (handleBatchError s e bts cs).state.pollRate = s.pollRate := by
  unfold handleBatchError resetState
  by_cases hc : isCritical e = true
  · simp only [hc, if_true]
    by_cases h4 : e.status = some 404 <;> simp [h4]
  · simp only [Bool.not_eq_true] at hc
    simp [hc]

theorem handleBatchError_key (s : ClientState) (e : JsError)
    (bts : List (String × BatchRequest)) (cs : List String) :
    (handleBatchError s e bts cs).state.key = s.key ∨
      (handleBatchError s e bts cs).state.key = none := by
  unfold handleBatchError resetState
  by_cases hc : isCritical e = true
  · simp only [hc, if_true]
    by_cases h4 : e.status = some 404 <;> simp [h4]
  · simp only [Bool.not_eq_true] at hc
    simp [hc]

theorem stepRound_pollRate (decode : String → Option JSValue) (s : ClientState)
    (o : RoundOutcome) (sub : List (String × BatchRequest)) :
    (stepRound decode s o sub).state.pollRate = s.pollRate ∨
      ∃ n, (stepRound decode s o sub).state.pollRate = clamp n := by
  unfold stepRound
  by_cases hg : processGuard s = true
  · simp [hg]
  · simp only [Bool.not_eq_true] at hg
    simp only [hg, Bool.false_eq_true, if_false]
    unfold processBatch beginRound
    by_cases hb : (s.broken || !(jsTruthyKey s.key)) = true
    · simp [hb]
    · simp only [Bool.not_eq_true] at hb
      simp only [hb, Bool.false_eq_true, if_false]
      cases o with
      | success data =>
        simp only [handleBatchResponse]
        exact batchUpdate_cases s.pollRate data.intervalMs
      | failure e =>
        simp only
        rw [handleBatchError_pollRate]
        left
        rfl

theorem stepRound_key (decode : String → Option JSValue) (s : ClientState)
    (o : RoundOutcome) (sub : List (String × BatchRequest)) :
    (stepRound decode s o sub).state.key = s.key ∨
      (stepRound decode s o sub).state.key = none := by
  unfold stepRound
  by_cases hg : processGuard s = true
  · simp [hg]
  · simp only [Bool.not_eq_true] at hg
    simp only [hg, Bool.false_eq_true, if_false]
    unfold processBatch beginRound
    by_cases hb : (s.broken || !(jsTruthyKey s.key)) = true
    · simp [hb]
    · simp only [Bool.not_eq_true] at hb
      simp only [hb, Bool.false_eq_true, if_false]
      cases o with
      | success data => simp [handleBatchResponse]
      | failure e =>
        simp only
        rcases handleBatchError_key _ e _ _ with h | h
        · left
          rw [h]
        · right
          exact h

theorem reachable_pollRateInv {s : ClientState} (h : Reachable s) : pollRateInv s := by
  induction h with
  | init => exact ⟨by norm_num [initState], by norm_num [initState]⟩
  | step _ hstep ih =>
    rename_i s1 s2 _
    cases hstep with
    | setKeyS k o he =>
      subst he
      rcases setKeyStep_pollRate s1 k o with hsame | ⟨n, hcl⟩
      · exact ⟨hsame ▸ ih.1, hsame ▸ ih.2⟩
      · exact ⟨hcl ▸ (clamp_bounds n).1, hcl ▸ (clamp_bounds n).2⟩
    | submitS rk c ts hb hk he =>
      subst he
      exact ih
    | roundS decode o sub he =>
      subst he
      rcases stepRound_pollRate decode s1 o sub with hsame | ⟨n, hcl⟩
      · exact ⟨hsame ▸ ih.1, hsame ▸ ih.2⟩
      · exact ⟨hcl ▸ (clamp_bounds n).1, hcl ▸ (clamp_bounds n).2⟩

theorem reachable_keyInv {s : ClientState} (h : Reachable s) : keyInv s := by
  induction h with
  | init => simp [keyInv, initState]
  | step _ hstep ih =>
    rename_i s1 s2 _
    cases hstep with
    | setKeyS k o he =>
      subst he
      rcases setKeyStep_key s1 k o with hk | hk
      · unfold keyInv
        rw [hk]
        exact normalizeKey_ne_empty k
      · unfold keyInv
        rw [hk]
        simp
    | submitS rk c ts hb hk he =>
      subst he
      exact ih
    | roundS decode o sub he =>
      subst he
      rcases stepRound_key decode s1 o sub with hk | hk
      · unfold keyInv
        rw [hk]
        exact ih
      · unfold keyInv
        rw [hk]
        simp

theorem processGuard_false_parts {s : ClientState} (h : processGuard s = false) :
    s.broken = false ∧ s.processing = false ∧ jsTruthyKey s.key = true ∧
      hasWork s = true := by
  simp only [processGuard, Bool.or_eq_false_iff] at h
  obtain ⟨⟨⟨h1, h2⟩, h3⟩, h4⟩ := h
  refine ⟨h1, h2, ?_, ?_⟩
  · cases hx : jsTruthyKey s.key
    · rw [hx] at h3
      simp at h3
    · rfl
  · cases hx : hasWork s
    · rw [hx] at h4
      simp at h4
    · rfl

/-! ### Concrete material for witnesses and counterexamples -/

/-- A decode function under which no string parses (JSON.parse throws). -/
def decodeNone : String → Option JSValue := fun _ => none

/-- A sample api call. -/
def callM : ApiCall := ⟨"m", none⟩

/-- State after a successful plain `setKey("k")`. -/
def stK : ClientState := (setKeyStep initState (some "k") (InitOutcome.success none)).state

/-- `stK` with one request pending under key `r1`. -/
def stKP : ClientState := enqueue stK "r1" callM 0

/-! ### Claim theorems -/

/-- C1: counterexample to exactly-once settlement. A request is enqueued
while connected; the batch round succeeds but the response carries no
`created` acknowledgment for it. The round invokes no continuation, the
request is left in no queue afterwards, and no timer is armed: the
request is dropped with neither resolve nor reject ever firing, although
it was still pending when the round began. -/
theorem request_lost_without_created_ack :
    (stepRound decodeNone stKP (RoundOutcome.success ⟨none, [], []⟩) []).started = true ∧
    (stepRound decodeNone stKP (RoundOutcome.success ⟨none, [], []⟩) []).events = [] ∧
    (stepRound decodeNone stKP (RoundOutcome.success ⟨none, [], []⟩) []).state.pending = [] ∧
    (stepRound decodeNone stKP (RoundOutcome.success ⟨none, [], []⟩) []).state.active = [] ∧
    (stepRound decodeNone stKP (RoundOutcome.success ⟨none, [], []⟩) []).state.completed = [] ∧
    (stepRound decodeNone stKP (RoundOutcome.success ⟨none, [], []⟩) []).timer = none ∧
    mapGet stKP.pending "r1" = some ⟨"r1", callM, 0⟩ :=
  ⟨rfl, rfl, rfl, rfl, rfl, rfl, rfl⟩

/-- C6: single-flight. A `processIfNeeded` call made while `processing`
is true — or while the connection is broken, the key is null, or all
three queues are empty — returns without starting a round and without
mutating any state; otherwise the round runs with the processing flag
raised (`beginRound`) and the flag is false again when the call
returns. -/
theorem single_flight (decode : String → Option JSValue) (s : ClientState)
    (o : RoundOutcome) (sub : List (String × BatchRequest)) :
    (processGuard s = true → stepRound decode s o sub = ⟨s, [], none, false⟩) ∧
    (s.processing = true → processGuard s = true) ∧
    (s.broken = true → processGuard s = true) ∧
    (s.key = none → processGuard s = true) ∧
    (hasWork s = false → processGuard s = true) ∧
    (processGuard s = false →
      (stepRound decode s o sub).started = true ∧
      (stepRound decode s o sub).state.processing = false ∧
      (beginRound s).processing = true) := by
  refine ⟨?_, ?_, ?_, ?_, ?_, ?_⟩
  · intro h
    simp [stepRound, h]
  · intro h
    simp [processGuard, h]
  · intro h
    simp [processGuard, h]
  · intro h
    simp [processGuard, h, jsTruthyKey]
  · intro h
    simp [processGuard, h]
  · intro h
    refine ⟨?_, ?_, rfl⟩
    · simp [stepRound, h]
    · simp [stepRound, h]

/-- C2: after a successful batch round is reconciled, a timer of (the
then-current) `pollRate` milliseconds is armed exactly when one of the
three queues is non-empty in the resulting state; otherwise no timer is
armed, so polling stops exactly when all three queues are empty. -/
theorem rearm_after_success (decode : String → Option JSValue) (s : ClientState)
    (data : BatchData) (sub : List (String × BatchRequest))
    (h : processGuard s = false) :
    (hasWork (stepRound decode s (RoundOutcome.success data) sub).state = true →
      (stepRound decode s (RoundOutcome.success data) sub).timer =
        some (stepRound decode s (RoundOutcome.success data) sub).state.pollRate) ∧
    (hasWork (stepRound decode s (RoundOutcome.success data) sub).state = false →
      (stepRound decode s (RoundOutcome.success data) sub).timer = none) := by
  obtain ⟨hb, _, hk, _⟩ := processGuard_false_parts h
  simp only [stepRound, h, Bool.false_eq_true, if_false, processBatch, beginRound,
    hb, hk, Bool.not_true, Bool.or_self, Bool.or_false, Bool.false_or]
  constructor
  · intro hw
    simp only [hasWork] at hw ⊢
    simp [hw]
  · intro hw
    simp only [hasWork] at hw ⊢
    simp [hw]

/-- C2 witness: a concrete successful round that drains every queue arms
no timer. -/
theorem rearm_after_success_witness :
    (stepRound decodeNone stKP (RoundOutcome.success ⟨none, [], []⟩) []).timer = none :=
  (rearm_after_success decodeNone stKP ⟨none, [], []⟩ [] rfl).2 rfl

/-- C3: the `parseResult` policy. A string is decoded as JSON; if the
decoded value is an object containing a `result` field, that field is
returned, otherwise the decoded value itself; a string that fails to
decode is returned unchanged; a non-string value passes through
unchanged unless it is an object with both `method` and `result` fields,
in which case its `result` field is returned. -/
theorem parseResult_policy (decode : String → Option JSValue) :
    (∀ s p, decode s = some p →
        parseResult decode (some (JSValue.str s)) =
          (if (jsProp p "result").isSome then jsProp p "result" else some p)) ∧
    (∀ s, decode s = none →
        parseResult decode (some (JSValue.str s)) = some (JSValue.str s)) ∧
    (∀ v, (∀ t, v ≠ JSValue.str t) →
        parseResult decode (some v) =
          (if (jsProp v "method").isSome && (jsProp v "result").isSome
           then jsProp v "result" else some v)) := by
  refine ⟨?_, ?_, ?_⟩
  · intro s p hd
    cases p with
    | obj fields =>
      cases hres : (fields.lookup "result").isSome <;>
        simp [parseResult, hd, jsTruthy, typeofObject, jsProp, hres]
    | null => simp [parseResult, hd, jsTruthy, typeofObject, jsProp]
    | bool b => simp [parseResult, hd, jsTruthy, typeofObject, jsProp]
    | num n => simp [parseResult, hd, jsTruthy, typeofObject, jsProp]
    | str t => simp [parseResult, hd, jsTruthy, typeofObject, jsProp]
    | arr l => simp [parseResult, hd, jsTruthy, typeofObject, jsProp]
  · intro s hd
    simp [parseResult, hd]
  · intro v hv
    cases v with
    | str t => exact absurd rfl (hv t)
    | null => simp [parseResult, jsTruthy, typeofObject, jsProp]
    | bool b => simp [parseResult, jsTruthy, typeofObject, jsProp]
    | num n => simp [parseResult, jsTruthy, typeofObject, jsProp]
    | arr l => simp [parseResult, jsTruthy, typeofObject, jsProp]
    | obj fields => simp [parseResult, jsTruthy, typeofObject, jsProp]

/-! ### The failure path, characterized -/

/-- The live state during an in-flight round: pending and completed were
cleared after snapshotting, requests submitted during the round have
landed in the fresh pending map, and the processing flag is up. -/
def midState (s : ClientState) (sub : List (String × BatchRequest)) : ClientState :=
  {s with pending := sub, completed := [], processing := true}

theorem stepRound_failure (decode : String → Option JSValue) (s : ClientState)
    (e : JsError) (sub : List (String × BatchRequest)) (h : processGuard s = false) :
    stepRound decode s (RoundOutcome.failure e) sub =
      ⟨{(handleBatchError (midState s sub) e s.pending s.completed).state with
          processing := false},
        (handleBatchError (midState s sub) e s.pending s.completed).events,
        (handleBatchError (midState s sub) e s.pending s.completed).timer, true⟩ := by
  obtain ⟨hb, _, hk, _⟩ := processGuard_false_parts h
  simp [stepRound, h, processBatch, beginRound, midState, hb, hk]

theorem handleBatchError_transient (s : ClientState) (e : JsError)
    (bts : List (String × BatchRequest)) (cs : List String)
    (hcrit : isCritical e = false) :
    handleBatchError s e bts cs =
      ⟨{s with pending := rollbackPending s.pending bts,
               completed := restoreCompleted s.completed cs,
               error := some (getErrorMessage e)}, [],
        some (min 2000 s.pollRate)⟩ := by
  simp [handleBatchError, hcrit]

theorem handleBatchError_critical (s : ClientState) (e : JsError)
    (bts : List (String × BatchRequest)) (cs : List String)
    (hcrit : isCritical e = true) :
    (handleBatchError s e bts cs).state.broken = true ∧
    (handleBatchError s e bts cs).state.pending = [] ∧
    (handleBatchError s e bts cs).state.active = [] ∧
    (handleBatchError s e bts cs).state.completed = [] ∧
    (handleBatchError s e bts cs).timer = none ∧
    (handleBatchError s e bts cs).events =
      (rollbackPending s.pending bts).map (fun p => Event.reject p.1 "Connection reset") ++
        s.active.map (fun p => Event.reject p.1 "Connection reset") := by
  unfold handleBatchError resetState
  by_cases h4 : e.status = some 404 <;> simp [hcrit, h4]

theorem handleBatchError_404 (s : ClientState) (e : JsError)
    (bts : List (String × BatchRequest)) (cs : List String)
    (h4 : e.status = some 404) :
    (handleBatchError s e bts cs).state.key = none ∧
    (handleBatchError s e bts cs).state.error =
      some (jsOrElse e.dataMessage "Session not found. Create key again.") := by
  have hcrit : isCritical e = true := by simp [isCritical, h4]
  unfold handleBatchError resetState
  simp [hcrit, h4]

theorem reject_mem_of_key_mem {m : List (String × BatchRequest)} {k msg : String}
    (h : k ∈ m.map Prod.fst) :
    Event.reject k msg ∈ m.map (fun p => Event.reject p.1 msg) := by
  obtain ⟨p, hp, he⟩ := List.mem_map.mp h
  exact List.mem_map.mpr ⟨p, hp, by rw [he]⟩

/-- C10: a transient (non-critical) batch failure leaves the active map
entirely unchanged and invokes no continuation at all: the rollback
touches only pending and completed. -/
theorem transient_failure_frame (decode : String → Option JSValue) (s : ClientState)
    (e : JsError) (sub : List (String × BatchRequest))
    (hguard : processGuard s = false) (hcrit : isCritical e = false) :
    (stepRound decode s (RoundOutcome.failure e) sub).state.active = s.active ∧
    (stepRound decode s (RoundOutcome.failure e) sub).events = [] := by
  rw [stepRound_failure decode s e sub hguard]
  rw [handleBatchError_transient _ e _ _ hcrit]
  exact ⟨rfl, rfl⟩

/-- C10 witness: a concrete timed-out round leaves the (empty) active map
untouched and fires no continuation. -/
theorem transient_failure_frame_witness :
    (stepRound decodeNone stKP (RoundOutcome.failure ⟨none, none, some "timeout"⟩) []).state.active
        = stKP.active ∧
    (stepRound decodeNone stKP (RoundOutcome.failure ⟨none, none, some "timeout"⟩) []).events = [] :=
  transient_failure_frame decodeNone stKP ⟨none, none, some "timeout"⟩ [] rfl rfl

/-- C5 (amended): a 404 or 500 failure is critical — the connection
breaks, every pending (snapshot and during-round) and active request is
rejected with a connection-reset error, all queues clear, no retry is
armed and the round guard holds afterwards; on 404 the key is nulled and
lastError becomes the server-supplied message when present and
non-empty, otherwise the generic session-not-found text. Any other
failure is transient: broken stays false, the key and active map are
kept, no continuation fires, and a retry is armed after
min(2000, pollRate) ms. -/
theorem failure_classification (decode : String → Option JSValue) (s : ClientState)
    (e : JsError) (sub : List (String × BatchRequest)) (h : processGuard s = false) :
    (isCritical e = true →
      (stepRound decode s (RoundOutcome.failure e) sub).state.broken = true ∧
      (stepRound decode s (RoundOutcome.failure e) sub).state.pending = [] ∧
      (stepRound decode s (RoundOutcome.failure e) sub).state.active = [] ∧
      (stepRound decode s (RoundOutcome.failure e) sub).state.completed = [] ∧
      (stepRound decode s (RoundOutcome.failure e) sub).timer = none ∧
      processGuard (stepRound decode s (RoundOutcome.failure e) sub).state = true ∧
      (∀ p ∈ s.pending, Event.reject p.1 "Connection reset" ∈
        (stepRound decode s (RoundOutcome.failure e) sub).events) ∧
      (∀ p ∈ sub, Event.reject p.1 "Connection reset" ∈
        (stepRound decode s (RoundOutcome.failure e) sub).events) ∧
      (∀ p ∈ s.active, Event.reject p.1 "Connection reset" ∈
        (stepRound decode s (RoundOutcome.failure e) sub).events)) ∧
    (e.status = some 404 →
      (stepRound decode s (RoundOutcome.failure e) sub).state.key = none ∧
      (∀ m, e.dataMessage = some m → m ≠ "" →
        (stepRound decode s (RoundOutcome.failure e) sub).state.error = some m) ∧
      ((e.dataMessage = none ∨ e.dataMessage = some "") →
        (stepRound decode s (RoundOutcome.failure e) sub).state.error =
          some "Session not found. Create key again.")) ∧
    (isCritical e = false →
      (stepRound decode s (RoundOutcome.failure e) sub).state.broken = false ∧
      (stepRound decode s (RoundOutcome.failure e) sub).state.key = s.key ∧
      (stepRound decode s (RoundOutcome.failure e) sub).state.active = s.active ∧
      (stepRound decode s (RoundOutcome.failure e) sub).events = [] ∧
      (stepRound decode s (RoundOutcome.failure e) sub).timer =
        some (min 2000 s.pollRate)) := by
  obtain ⟨hb, hpr, hk, hw⟩ := processGuard_false_parts h
  rw [stepRound_failure decode s e sub h]
  refine ⟨?_, ?_, ?_⟩
  · intro hcrit
    obtain ⟨c1, c2, c3, c4, c5, c6⟩ :=
      handleBatchError_critical (midState s sub) e s.pending s.completed hcrit
    refine ⟨c1, c2, c3, c4, c5, ?_, ?_, ?_, ?_⟩
    · show processGuard _ = true
      simp only [processGuard]
      have hbb : ({(handleBatchError (midState s sub) e s.pending s.completed).state with
          processing := false} : ClientState).broken = true := c1
      rw [hbb]
      simp
    · intro p hp
      show Event.reject p.1 "Connection reset" ∈
        (handleBatchError (midState s sub) e s.pending s.completed).events
      rw [c6]
      refine List.mem_append.mpr (Or.inl ?_)
      exact reject_mem_of_key_mem
        (keys_rollback_right (List.mem_map.mpr ⟨p, hp, rfl⟩))
    · intro p hp
      show Event.reject p.1 "Connection reset" ∈
        (handleBatchError (midState s sub) e s.pending s.completed).events
      rw [c6]
      refine List.mem_append.mpr (Or.inl ?_)
      exact reject_mem_of_key_mem
        (keys_rollback_left _ (List.mem_map.mpr ⟨p, hp, rfl⟩))
    · intro p hp
      show Event.reject p.1 "Connection reset" ∈
        (handleBatchError (midState s sub) e s.pending s.completed).events
      rw [c6]
      exact List.mem_append.mpr (Or.inr (reject_mem_of_key_mem
        (List.mem_map.mpr ⟨p, hp, rfl⟩)))
  · intro h4
    obtain ⟨k1, k2⟩ := handleBatchError_404
      (midState s sub) e s.pending s.completed h4
    refine ⟨k1, ?_, ?_⟩
    · intro m hm hne
      show (handleBatchError _ e _ _).state.error = some m
      rw [k2, hm]
      simp [jsOrElse, hne]
    · intro hcase
      show (handleBatchError _ e _ _).state.error =
        some "Session not found. Create key again."
      rw [k2]
      rcases hcase with hc | hc <;> rw [hc] <;> simp [jsOrElse]
  · intro hcrit
    rw [handleBatchError_transient _ e _ _ hcrit]
    exact ⟨hb, rfl, rfl, rfl, rfl⟩

/-- C5 witness: a concrete 404 failure breaks the connection, clears the
queues, nulls the key and arms no retry. -/
theorem failure_classification_witness :
    (stepRound decodeNone stKP
        (RoundOutcome.failure ⟨some 404, some "gone", some "HTTP 404"⟩) []).state.broken = true ∧
    (stepRound decodeNone stKP
        (RoundOutcome.failure ⟨some 404, some "gone", some "HTTP 404"⟩) []).state.key = none ∧
    (stepRound decodeNone stKP
        (RoundOutcome.failure ⟨some 404, some "gone", some "HTTP 404"⟩) []).state.error =
      some "gone" := by
  have h := failure_classification decodeNone stKP
    ⟨some 404, some "gone", some "HTTP 404"⟩ [] rfl
  exact ⟨(h.1 rfl).1, (h.2.1 rfl).1, (h.2.1 rfl).2.1 "gone" rfl (by decide)⟩

/-- An HTTP 404 failure whose body carries a present-but-empty message. -/
def err404e : JsError := ⟨some 404, some "", some "HTTP 404"⟩

/-- C5 counterexample: on a 404 whose server-supplied message is present
but empty, lastError becomes the generic session-not-found text, not the
(empty) server-supplied message the claim dictates. -/
theorem empty_message_yields_generic_404_text :
    err404e.dataMessage = some "" ∧
    (stepRound decodeNone stKP (RoundOutcome.failure err404e) []).state.error =
      some "Session not found. Create key again." ∧
    (stepRound decodeNone stKP (RoundOutcome.failure err404e) []).state.error ≠ some "" :=
  ⟨rfl, rfl, by decide⟩

/-- C4 (amended): on a transient failed round every snapshot pending
entry is reinserted into the live pending map, merged with (not
overwriting) entries submitted during the round, and every snapshot
completed key is reinserted; hence pending.size + active.size equals its
pre-round value plus the number of requests submitted during the round.
On a critical failure the same rollback runs but is followed by a full
reset that rejects and clears the queues, so the size equation does not
apply there. -/
theorem rollback_conservation (decode : String → Option JSValue) (s : ClientState)
    (e : JsError) (sub : List (String × BatchRequest))
    (hguard : processGuard s = false) (hcrit : isCritical e = false)
    (hnd : (s.pending.map Prod.fst).Nodup)
    (hdisj : ∀ kk ∈ s.pending.map Prod.fst, kk ∉ sub.map Prod.fst) :
    (∀ kk v, mapGet s.pending kk = some v →
      mapGet (stepRound decode s (RoundOutcome.failure e) sub).state.pending kk = some v) ∧
    (∀ kk v, mapGet sub kk = some v →
      mapGet (stepRound decode s (RoundOutcome.failure e) sub).state.pending kk = some v) ∧
    (∀ c ∈ s.completed, c ∈ (stepRound decode s (RoundOutcome.failure e) sub).state.completed) ∧
    (stepRound decode s (RoundOutcome.failure e) sub).state.pending.length +
        (stepRound decode s (RoundOutcome.failure e) sub).state.active.length =
      s.pending.length + s.active.length + sub.length := by
  rw [stepRound_failure decode s e sub hguard]
  rw [handleBatchError_transient _ e _ _ hcrit]
  have hra : rollbackPending sub s.pending = sub ++ s.pending := by
    apply rollback_append
    · intro p hp
      rw [containsKey_eq_false_iff]
      exact hdisj p.1 (List.mem_map.mpr ⟨p, hp, rfl⟩)
    · exact hnd
  refine ⟨?_, ?_, ?_, ?_⟩
  · intro kk v hv
    show mapGet (rollbackPending sub s.pending) kk = some v
    rw [hra]
    have hk1 : kk ∈ s.pending.map Prod.fst := lookup_mem_keys hv
    have hk2 : containsKey sub kk = false :=
      containsKey_eq_false_iff.mpr (hdisj kk hk1)
    rw [lookup_append_right _ hk2]
    exact hv
  · intro kk v hv
    show mapGet (rollbackPending sub s.pending) kk = some v
    rw [hra]
    exact lookup_append_left _ hv
  · intro c hc
    exact mem_restore_right hc
  · show (rollbackPending sub s.pending).length + s.active.length = _
    rw [hra, List.length_append]
    omega

/-- A pure network timeout (no HTTP status). -/
def errTimeout : JsError := ⟨none, none, some "timeout of 1000ms exceeded"⟩

/-- A second request, submitted during an in-flight round. -/
def reqD : BatchRequest := ⟨"d1", callM, 0⟩

/-- C4 witness: a timed-out round with one snapshot request and one
request submitted mid-round ends with both in pending: 2 = 1 + 0 + 1. -/
theorem rollback_conservation_witness :
    (stepRound decodeNone stKP (RoundOutcome.failure errTimeout)
        [("d1", reqD)]).state.pending.length +
      (stepRound decodeNone stKP (RoundOutcome.failure errTimeout)
        [("d1", reqD)]).state.active.length = 2 := by
  have h := rollback_conservation decodeNone stKP errTimeout [("d1", reqD)]
    rfl rfl (by decide) (by decide)
  exact h.2.2.2.trans (by decide)

/-- An HTTP 500 failure. -/
def err500 : JsError := ⟨some 500, none, some "Internal Server Error"⟩

/-- C4 counterexample: on a critical (500) failed round the failure
handling ends in a full reset, so pending.size + active.size is 0
afterwards although it was 1 before the round began and nothing was
submitted during the round. -/
theorem conservation_fails_on_critical_failure :
    stKP.pending.length + stKP.active.length = 1 ∧
    (stepRound decodeNone stKP (RoundOutcome.failure err500) []).state.pending.length +
        (stepRound decodeNone stKP (RoundOutcome.failure err500) []).state.active.length = 0 ∧
    (1 : Nat) ≠ 0 :=
  ⟨rfl, rfl, by decide⟩

/-- C7 (amended): in every reachable state pollRate lies in [500, 10000];
a batch-response update adopts any numeric raw value clamped to that
range (0, negative and 50000 clamp to 500, 500 and 10000); an init
update adopts only a positive raw value (clamped) and ignores zero or
negative raw values, leaving pollRate unchanged. -/
theorem pollRate_policy (s : ClientState) (h : Reachable s) :
    (500 ≤ s.pollRate ∧ s.pollRate ≤ 10000) ∧
    (∀ n : Int, batchUpdatePollRate s.pollRate (some n) = clamp n) ∧
    (clamp 0 = 500 ∧ clamp (-100) = 500 ∧ clamp 50000 = 10000) ∧
    (∀ n : Int, 0 < n → initUpdatePollRate s.pollRate (some n) = clamp n) ∧
    (∀ n : Int, n ≤ 0 → initUpdatePollRate s.pollRate (some n) = s.pollRate) := by
  refine ⟨reachable_pollRateInv h, fun n => rfl, ⟨by decide, by decide, by decide⟩, ?_, ?_⟩
  · intro n hn
    simp [initUpdatePollRate, hn]
  · intro n hn
    simp [initUpdatePollRate, not_lt.mpr hn]

/-- C7 witness: the invariant holds at the initial state. -/
theorem pollRate_policy_witness :
    500 ≤ initState.pollRate ∧ initState.pollRate ≤ 10000 :=
  (pollRate_policy initState Reachable.init).1

/-- A reachable state whose pollRate is 1000 (adopted during init). -/
def st1000 : ClientState :=
  (setKeyStep initState (some "k") (InitOutcome.success (some 1000))).state

/-- C7 counterexample: a server-driven init update with raw intervalMs 0
is ignored — pollRate stays 1000 instead of clamping to 500 as the claim
dictates for raw value 0. -/
theorem init_ignores_nonpositive_interval :
    Reachable st1000 ∧ st1000.pollRate = 1000 ∧
    (setKeyStep st1000 (some "k") (InitOutcome.success (some 0))).state.pollRate = 1000 ∧
    ((1000 : Int) = 500 → False) := by
  refine ⟨?_, rfl, rfl, by decide⟩
  exact Reachable.step Reachable.init
    (Step.setKeyS initState st1000 (some "k") (InitOutcome.success (some 1000)) rfl)

/-- C8: `setKey` trims the input and normalizes an empty or
whitespace-only string to the no-channel state; before any network
activity it clears the broken flag and lastError and rejects every
outstanding pending and active request with a connection-reset failure;
the init round-trip is performed iff the normalized key is non-empty,
and no further continuation is invoked by it. -/
theorem setKey_contract (s : ClientState) (k : Option String) (o : InitOutcome) :
    ((setKeyLocal s k).1.broken = false) ∧
    ((setKeyLocal s k).1.error = none) ∧
    ((setKeyLocal s k).1.pending = [] ∧ (setKeyLocal s k).1.active = []) ∧
    (∀ p ∈ s.pending, Event.reject p.1 "Connection reset" ∈ (setKeyLocal s k).2) ∧
    (∀ p ∈ s.active, Event.reject p.1 "Connection reset" ∈ (setKeyLocal s k).2) ∧
    ((setKeyLocal s k).1.key = normalizeKey k) ∧
    (∀ t : String, jsTrim t = "" → normalizeKey (some t) = none) ∧
    (∀ t : String, jsTrim t ≠ "" → normalizeKey (some t) = some (jsTrim t)) ∧
    (normalizeKey none = none) ∧
    ((setKeyStep s k o).performedInit = (normalizeKey k).isSome) ∧
    ((setKeyStep s k o).events = (setKeyLocal s k).2) := by
  refine ⟨rfl, rfl, ⟨rfl, rfl⟩, ?_, ?_, rfl, ?_, ?_, rfl, ?_, ?_⟩
  · intro p hp
    exact List.mem_append.mpr (Or.inl (List.mem_map.mpr ⟨p, hp, rfl⟩))
  · intro p hp
    exact List.mem_append.mpr (Or.inr (List.mem_map.mpr ⟨p, hp, rfl⟩))
  · intro t ht
    simp [normalizeKey, ht]
  · intro t ht
    simp [normalizeKey, ht]
  · cases hk : normalizeKey k with
    | none => simp [setKeyStep, setKeyLocal, resetState, hk]
    | some t =>
      cases o with
      | success iv => simp [setKeyStep, setKeyLocal, resetState, hk]
      | failure e =>
        by_cases h4 : e.status = some 404 <;>
          simp [setKeyStep, setKeyLocal, resetState, hk, h4]
  · cases hk : normalizeKey k with
    | none => simp [setKeyStep, setKeyLocal, resetState, hk]
    | some t =>
      cases o with
      | success iv => simp [setKeyStep, setKeyLocal, resetState, hk]
      | failure e =>
        by_cases h4 : e.status = some 404 <;>
          simp [setKeyStep, setKeyLocal, resetState, hk, h4]

/-- C9 (amended): in every reachable state, `isConnected` is true iff the
connection is not broken, the key is non-null and lastError is absent
or empty; `getState().connected` requires only the first two; hence
whenever a non-empty lastError is recorded while the key is set and the
connection not broken, `isConnected` is false while
`getState().connected` is true. -/
theorem connected_getters (s : ClientState) (h : Reachable s) :
    (isConnected s = true ↔
      (s.broken = false ∧ s.key ≠ none ∧ (s.error = none ∨ s.error = some ""))) ∧
    ((getState s).connected = true ↔ (s.broken = false ∧ s.key ≠ none)) ∧
    (∀ m : String, m ≠ "" → s.error = some m → s.key ≠ none → s.broken = false →
      isConnected s = false ∧ (getState s).connected = true) := by
  have hkey : jsTruthyKey s.key = true ↔ s.key ≠ none := by
    have hk := reachable_keyInv h
    cases hs : s.key with
    | none => simp [jsTruthyKey]
    | some t =>
      unfold keyInv at hk
      rw [hs] at hk
      have ht : t ≠ "" := by
        intro he
        exact hk (by rw [he])
      simp [jsTruthyKey, ht]
  have herr : jsTruthyErr s.error = false ↔ (s.error = none ∨ s.error = some "") := by
    cases hs : s.error with
    | none => simp [jsTruthyErr]
    | some m =>
      by_cases hm : m = "" <;> simp [jsTruthyErr, hm]
  refine ⟨?_, ?_, ?_⟩
  · rw [isConnected]
    constructor
    · intro hc
      simp only [Bool.and_eq_true, Bool.not_eq_true'] at hc
      exact ⟨hc.1.1, hkey.mp hc.1.2, herr.mp hc.2⟩
    · rintro ⟨h1, h2, h3⟩
      simp only [Bool.and_eq_true, Bool.not_eq_true']
      exact ⟨⟨by rw [h1], hkey.mpr h2⟩, herr.mpr h3⟩
  · rw [getState]
    constructor
    · intro hc
      simp only [Bool.and_eq_true, Bool.not_eq_true'] at hc
      exact ⟨hc.1, hkey.mp hc.2⟩
    · rintro ⟨h1, h2⟩
      simp only [Bool.and_eq_true, Bool.not_eq_true']
      exact ⟨by rw [h1], hkey.mpr h2⟩
  · intro m hm he hk2 hb
    constructor
    · rw [isConnected]
      have : jsTruthyErr s.error = true := by
        rw [he]
        simp [jsTruthyErr, hm]
      rw [this]
      simp
    · rw [getState]
      simp only [Bool.and_eq_true, Bool.not_eq_true']
      exact ⟨by rw [hb], hkey.mpr hk2⟩

/-- C9 witness: the getter equivalences instantiated at the initial
state. -/
theorem connected_getters_witness :
    isConnected initState = true ↔
      (initState.broken = false ∧ initState.key ≠ none ∧
        (initState.error = none ∨ initState.error = some "")) :=
  (connected_getters initState Reachable.init).1

/-- A transient round failure whose thrown Error has an empty message. -/
def emptyMsgErr : JsError := ⟨none, none, some ""⟩

/-- The reachable state after that failure: lastError is recorded as the
empty string. -/
def stErr : ClientState :=
  (stepRound decodeNone stKP (RoundOutcome.failure emptyMsgErr) []).state

/-- C9 counterexample: a reachable state holding a non-null (empty
string) lastError with the key still set and the connection not broken,
in which `isConnected` is nevertheless true — contradicting the claim
that `isConnected` requires lastError to be null. -/
theorem empty_error_still_connected :
    Reachable stErr ∧ stErr.error = some "" ∧ stErr.broken = false ∧
    stErr.key = some "k" ∧ isConnected stErr = true := by
  refine ⟨?_, rfl, rfl, rfl, rfl⟩
  exact Reachable.step
    (Reachable.step
      (Reachable.step Reachable.init
        (Step.setKeyS initState stK (some "k") (InitOutcome.success none) rfl))
      (Step.submitS stK stKP "r1" callM 0 rfl rfl rfl))
    (Step.roundS stKP stErr decodeNone (RoundOutcome.failure emptyMsgErr) [] rfl)

end KeyBridge
